import Mathlib

/-!
Verification of the MarketAI report-generation pipeline (`app.py`).

Texts are modelled as lists of characters (`Str`), Python `None`/missing
values as `Option`, and raised exceptions as `Except` errors.  The
Streamlit/Tavily/Groq/ReportLab libraries are external collaborators: a
Tavily search is modelled by its outcome (an exception, or a response
dictionary), the LLM call by its outcome (an exception, or a
`CompanyReport` value), the PDF builder by the list of flowables handed to
it plus the file it writes, and the SQLite table by a list of rows.
-/

/-- Python strings, modelled as lists of characters. -/
abbrev Str := List Char

/-- `limit_text(text, max_chars=2500)` from app.py: a falsy input
(`None` or the empty string) yields `""`, otherwise the first
`max_chars` characters. -/
def limit_text (text : Option Str) (max_chars : Nat := 2500) : Str :=
  match text with
  | none => []
  | some s => if s = [] then [] else s.take max_chars

/-- One item of a Tavily result list; `content` is absent when the key is
missing (`item.get("content", "")` then yields `""`). -/
structure TavilyItem where
  content : Option Str
deriving DecidableEq

/-- `item.get("content", "")`. -/
def itemContent (it : TavilyItem) : Str := it.content.getD []

/-- A Tavily response dictionary; `results` is `none` when the
`"results"` key is missing. -/
structure TavilyResponse where
  results : Option (List TavilyItem)
deriving DecidableEq

/-- Python `" ".join(l)`: the elements of `l` separated by single
spaces. -/
def joinSpace : List Str → Str
  | [] => []
  | [s] => s
  | s :: rest => s ++ ' ' :: joinSpace rest

/-- `tavily_text(result)` from app.py: `""` for a falsy response or one
without a `"results"` key, otherwise the space-join of the items'
`content` fields. -/
def tavily_text (result : Option TavilyResponse) : Str :=
  match result with
  | none => []
  | some r =>
    match r.results with
    | none => []
    | some items => joinSpace (items.map itemContent)

/-- Error values carried by a raised exception. -/
abbrev Err := Str

/-- The outcome of one `tavily.search` call: a raised exception, or a
response value (possibly `None`). -/
abbrev SearchOutcome := Except Err (Option TavilyResponse)

/-- `safe_tavily(query, depth)` from app.py, as a function of the outcome
of the underlying `tavily.search` call: any exception is swallowed and
yields `""`; a response is reduced by `tavily_text` and truncated by
`limit_text`. -/
def safe_tavily (outcome : SearchOutcome) : Str :=
  match outcome with
  | .error _ => []
  | .ok r => limit_text (some (tavily_text r))

/-- The outcomes of the five facet searches issued by
`generate_report`. -/
structure SearchOutcomes where
  overviewR : SearchOutcome
  newsR : SearchOutcome
  earningsR : SearchOutcome
  futurePlansR : SearchOutcome
  stockNewsR : SearchOutcome

/-- The five facet texts held by `generate_report` after fetching. -/
structure FacetText where
  overview : Str
  news : Str
  earnings : Str
  future_plans : Str
  stock_news : Str
deriving DecidableEq

/-- The literal fallback sentence of app.py line 147. -/
def overviewFallback : Str := "Company overview information not available.".data

/-- Lines 140–147 of app.py: the five `safe_tavily` fetches followed by
the overview fallback substitution. -/
def fetch_facets (o : SearchOutcomes) : FacetText :=
  let overview := safe_tavily o.overviewR
  { overview := if overview = [] then overviewFallback else overview
    news := safe_tavily o.newsR
    earnings := safe_tavily o.earningsR
    future_plans := safe_tavily o.futurePlansR
    stock_news := safe_tavily o.stockNewsR }

/-- `limit_text` never exceeds its budget. -/
theorem limit_text_le (t : Option Str) (n : Nat) : (limit_text t n).length ≤ n := by
  match t with
  | none => simp [limit_text]
  | some s =>
    by_cases h : s = []
    · simp [limit_text, h]
    · simp only [limit_text, if_neg h]
      exact (s.length_take n).le.trans (Nat.min_le_left _ _)

/-- On lists, the falsy test of `limit_text` is redundant: the result is
always a `take`. -/
theorem limit_text_some_eq_take (s : Str) (n : Nat) :
    limit_text (some s) n = s.take n := by
  by_cases h : s = [] <;> simp [limit_text, h]

/-! ### Claims C1–C3 -/

/-- C1: for every input to `limit_text` (at its default budget of 2500),
the returned string has length at most 2500, and a falsy input — missing
(`None`) or the empty string — yields the empty string. -/
theorem limit_text_bounded (t : Option Str) :
    (limit_text t).length ≤ 2500 ∧
    limit_text none = ([] : Str) ∧ limit_text (some []) = ([] : Str) :=
  ⟨limit_text_le t 2500, rfl, rfl⟩

/-- C3: if the underlying search call raises any exception,
`safe_tavily` returns the empty string instead of propagating it. -/
theorem safe_tavily_swallows (e : Err) :
    safe_tavily (Except.error e) = ([] : Str) := rfl

/-- C2: after the five fetches, the overview facet is never empty — it is
either the (nonempty) truncated fetched content or exactly the literal
fallback sentence — and no other facet receives any fallback: each equals
its `safe_tavily` result unchanged. -/
theorem fetch_facets_overview_fallback (o : SearchOutcomes) :
    (fetch_facets o).overview ≠ [] ∧
    ((fetch_facets o).overview = safe_tavily o.overviewR ∨
      (fetch_facets o).overview = overviewFallback) ∧
    (fetch_facets o).news = safe_tavily o.newsR ∧
    (fetch_facets o).earnings = safe_tavily o.earningsR ∧
    (fetch_facets o).future_plans = safe_tavily o.futurePlansR ∧
    (fetch_facets o).stock_news = safe_tavily o.stockNewsR := by
  by_cases h : safe_tavily o.overviewR = []
  · refine ⟨?_, Or.inr ?_, rfl, rfl, rfl, rfl⟩ <;>
      simp [fetch_facets, h, overviewFallback]
  · refine ⟨?_, Or.inl ?_, rfl, rfl, rfl, rfl⟩ <;>
      simp [fetch_facets, h]

/-! ### Claim C4 -/

/-- The claim's reading of the reduction, written from the spec's words
for comparison: the `content` fields concatenated directly (no
separator), then truncated to 2500 characters. -/
def facet_text_concat_spec (result : Option TavilyResponse) : Str :=
  match result with
  | none => []
  | some r =>
    match r.results with
    | none => []
    | some items => ((items.map itemContent).flatten).take 2500

/-- The space-join written from the amended claim's words: the first
element followed by each further element prefixed with one space. -/
def joinSpaceSpec (l : List Str) : Str :=
  match l with
  | [] => []
  | s :: rest => s ++ rest.flatMap (fun t => ' ' :: t)

/-- The code's `" ".join` agrees with the amended claim's space-join. -/
theorem joinSpace_eq_spec (l : List Str) : joinSpace l = joinSpaceSpec l := by
  match l with
  | [] => rfl
  | [s] => simp [joinSpace, joinSpaceSpec]
  | s :: t :: rest =>
    have ih := joinSpace_eq_spec (t :: rest)
    simp only [joinSpace, joinSpaceSpec] at *
    simp [ih]

/-- C4, counterexample: on a response with two result items of content
`"a"` and `"b"`, the facet text the code produces is `"a b"`, not the
direct concatenation `"ab"` the claim describes. -/
theorem facet_text_concat_counterexample :
    safe_tavily (Except.ok (some ⟨some [⟨some ['a']⟩, ⟨some ['b']⟩]⟩))
      = ['a', ' ', 'b'] ∧
    facet_text_concat_spec (some ⟨some [⟨some ['a']⟩, ⟨some ['b']⟩]⟩)
      = ['a', 'b'] ∧
    safe_tavily (Except.ok (some ⟨some [⟨some ['a']⟩, ⟨some ['b']⟩]⟩))
      ≠ facet_text_concat_spec (some ⟨some [⟨some ['a']⟩, ⟨some ['b']⟩]⟩) := by
  refine ⟨rfl, rfl, ?_⟩
  decide

/-- C4 (amended): for every successful search response, the facet text is
the content fields of the result items joined with a single space between
consecutive items, truncated to the first 2500 characters; a missing
(`None`) response, or one lacking the `results` field, yields the empty
string. -/
theorem facet_text_of_success (r : Option TavilyResponse) :
    (safe_tavily (Except.ok r)).length ≤ 2500 ∧
    safe_tavily (Except.ok none) = ([] : Str) ∧
    (∀ resp : TavilyResponse, r = some resp → resp.results = none →
      safe_tavily (Except.ok r) = []) ∧
    (∀ items : List TavilyItem, r = some ⟨some items⟩ →
      safe_tavily (Except.ok r)
        = (joinSpaceSpec (items.map itemContent)).take 2500) := by
  refine ⟨?_, rfl, ?_, ?_⟩
  · show (limit_text (some (tavily_text r))).length ≤ 2500
    exact limit_text_le _ 2500
  · rintro ⟨_⟩ rfl h
    simp only at h
    simp [safe_tavily, tavily_text, h, limit_text]
  · rintro items rfl
    simp [safe_tavily, tavily_text, limit_text_some_eq_take, joinSpace_eq_spec]

/-- C4 witness: the amended claim evaluated on a concrete two-item
response. -/
theorem facet_text_of_success_witness :
    safe_tavily (Except.ok (some ⟨some [⟨some ['a']⟩, ⟨some ['b']⟩]⟩))
      = (joinSpaceSpec [['a'], ['b']]).take 2500 :=
  ((facet_text_of_success
      (some ⟨some [⟨some ['a']⟩, ⟨some ['b']⟩]⟩)).2.2.2
    [⟨some ['a']⟩, ⟨some ['b']⟩] rfl)

/-! ### The structured report and the PDF story (claim C6) -/

/-- The `CompanyReport` pydantic model of app.py lines 56–62. -/
structure CompanyReport where
  company_overview : Str
  recent_developments : List Str
  earnings_summary : Str
  future_plans : Str
  stock_context : Str
  sources : List Str
deriving DecidableEq

/-- A ReportLab flowable as used by app.py: a `Paragraph(text, style)` or
a `Spacer(w, h)`. -/
inductive PdfElem where
  | para (text : Str) (style : Str)
  | spacer (w h : Nat)
deriving DecidableEq

/-- The `styles["Heading2"]` style name. -/
def heading2 : Str := "Heading2".data

/-- The `styles["Normal"]` style name. -/
def normalStyle : Str := "Normal".data

/-- The `styles["Title"]` style name. -/
def titleStyle : Str := "Title".data

/-- Lines 166–196 of app.py: the `story` list handed to `pdf.build`. -/
def build_story (company created_at : Str) (report : CompanyReport) :
    List PdfElem :=
  [PdfElem.para (company ++ " Research Report".data) titleStyle,
   PdfElem.spacer 1 8,
   PdfElem.para ("<i>Created on: ".data ++ created_at ++ "</i>".data) normalStyle,
   PdfElem.spacer 1 12,
   PdfElem.para "<b>Company Overview</b>".data heading2,
   PdfElem.para report.company_overview normalStyle,
   PdfElem.spacer 1 10,
   PdfElem.para "<b>Recent Developments</b>".data heading2]
  ++ report.recent_developments.map
      (fun item => PdfElem.para ("- ".data ++ item) normalStyle)
  ++ [PdfElem.spacer 1 10,
      PdfElem.para "<b>Earnings Summary</b>".data heading2,
      PdfElem.para report.earnings_summary normalStyle,
      PdfElem.spacer 1 10,
      PdfElem.para "<b>Future Plans</b>".data heading2,
      PdfElem.para report.future_plans normalStyle,
      PdfElem.spacer 1 10,
      PdfElem.para "<b>Stock Context</b>".data heading2,
      PdfElem.para report.stock_context normalStyle,
      PdfElem.spacer 1 12,
      PdfElem.para "<b>Sources</b>".data heading2]
  ++ report.sources.map
      (fun src => PdfElem.para ("- ".data ++ src) normalStyle)

/-- Whether a flowable is a section heading (a `Heading2` paragraph). -/
def isHeading : PdfElem → Bool
  | .para _ s => s = heading2
  | .spacer _ _ => false

/-- The text of a paragraph flowable. -/
def paraText : PdfElem → Option Str
  | .para t _ => some t
  | .spacer _ _ => none

/-- The section-heading texts of a story, in order. -/
def headings (story : List PdfElem) : List Str :=
  story.filterMap fun e =>
    match e with
    | .para t s => if s = heading2 then some t else none
    | .spacer _ _ => none

/-- The story after the first heading paragraph with text `h`. -/
def afterHeading (h : Str) : List PdfElem → List PdfElem
  | [] => []
  | .para t s :: rest =>
    if s = heading2 ∧ t = h then rest else afterHeading h (.para t s :: rest).tail
  | .spacer a b :: rest => afterHeading h (.spacer a b :: rest).tail

/-- The prefix of a story strictly before its first heading. -/
def upToNextHeading : List PdfElem → List PdfElem
  | [] => []
  | e :: rest => if isHeading e then [] else e :: upToNextHeading rest

/-- The paragraph texts of the section titled `h`: the paragraphs after
the heading `h` and before the next heading. -/
def sectionParas (story : List PdfElem) (h : Str) : List Str :=
  (upToNextHeading (afterHeading h story)).filterMap paraText


theorem isHeading_para (t s : Str) :
    isHeading (PdfElem.para t s) = decide (s = heading2) := rfl

theorem isHeading_spacer (a b : Nat) :
    isHeading (PdfElem.spacer a b) = false := rfl

theorem paraText_para (t s : Str) : paraText (PdfElem.para t s) = some t := rfl

theorem paraText_spacer (a b : Nat) : paraText (PdfElem.spacer a b) = none := rfl

theorem headings_nil : headings [] = [] := rfl

theorem headings_cons_para (t s : Str) (rest : List PdfElem) :
    headings (PdfElem.para t s :: rest)
      = if s = heading2 then t :: headings rest else headings rest := by
  by_cases h : s = heading2 <;> simp [headings, List.filterMap_cons, h]

theorem headings_cons_spacer (a b : Nat) (rest : List PdfElem) :
    headings (PdfElem.spacer a b :: rest) = headings rest := by
  simp [headings, List.filterMap_cons]

theorem headings_append (a b : List PdfElem) :
    headings (a ++ b) = headings a ++ headings b := by
  simp [headings, List.filterMap_append]

/-- Bullet paragraphs (Normal style) contribute no headings. -/
theorem headings_bullets (l : List Str) :
    headings (l.map (fun i => PdfElem.para ('-' :: ' ' :: i) normalStyle)) = [] := by
  induction l with
  | nil => rfl
  | cons x xs ih =>
    rw [List.map_cons, headings_cons_para, if_neg (by decide)]
    exact ih

theorem afterHeading_nil (h : Str) : afterHeading h [] = [] := rfl

theorem afterHeading_spacer (h : Str) (a b : Nat) (rest : List PdfElem) :
    afterHeading h (PdfElem.spacer a b :: rest) = afterHeading h rest := rfl

theorem afterHeading_para (h t s : Str) (rest : List PdfElem) :
    afterHeading h (PdfElem.para t s :: rest)
      = if s = heading2 ∧ t = h then rest else afterHeading h rest := rfl

/-- Bullet paragraphs (Normal style) are transparent to `afterHeading`. -/
theorem afterHeading_bullets (h : Str) (l : List Str) (rest : List PdfElem) :
    afterHeading h
        (l.map (fun i => PdfElem.para ('-' :: ' ' :: i) normalStyle) ++ rest)
      = afterHeading h rest := by
  induction l with
  | nil => rfl
  | cons x xs ih =>
    rw [List.map_cons, List.cons_append, afterHeading_para,
      if_neg (by simp +decide)]
    exact ih

theorem upToNextHeading_nil : upToNextHeading [] = [] := rfl

theorem upToNextHeading_cons (e : PdfElem) (rest : List PdfElem) :
    upToNextHeading (e :: rest)
      = if isHeading e then [] else e :: upToNextHeading rest := rfl

/-- Bullet paragraphs (Normal style) are kept by `upToNextHeading`. -/
theorem upToNextHeading_bullets (l : List Str) (rest : List PdfElem) :
    upToNextHeading
        (l.map (fun i => PdfElem.para ('-' :: ' ' :: i) normalStyle) ++ rest)
      = l.map (fun i => PdfElem.para ('-' :: ' ' :: i) normalStyle)
          ++ upToNextHeading rest := by
  induction l with
  | nil => rfl
  | cons x xs ih =>
    rw [List.map_cons, List.cons_append, upToNextHeading_cons,
      if_neg (by simp +decide [isHeading_para])]
    rw [ih]
    rfl

/-- `upToNextHeading` keeps a story that is entirely bullets. -/
theorem upToNextHeading_only_bullets (l : List Str) :
    upToNextHeading (l.map (fun i => PdfElem.para ('-' :: ' ' :: i) normalStyle))
      = l.map (fun i => PdfElem.para ('-' :: ' ' :: i) normalStyle) := by
  simpa [upToNextHeading_nil] using upToNextHeading_bullets l []

/-- `paraText` composed with bullet construction is the bullet text. -/
theorem filterMap_paraText_comp (l : List Str) :
    List.filterMap (paraText ∘ fun i => PdfElem.para ('-' :: ' ' :: i) normalStyle) l
      = l.map (fun i => '-' :: ' ' :: i) := by
  induction l with
  | nil => rfl
  | cons x xs ih => simp [List.filterMap_cons, paraText, ih]

/-- `filterMap paraText` recovers the bullet texts. -/
theorem filterMap_paraText_bullets (l : List Str) (rest : List PdfElem) :
    (l.map (fun i => PdfElem.para ('-' :: ' ' :: i) normalStyle) ++ rest).filterMap
        paraText
      = l.map (fun i => '-' :: ' ' :: i) ++ rest.filterMap paraText := by
  induction l with
  | nil => rfl
  | cons x xs ih =>
    rw [List.map_cons, List.cons_append, List.filterMap_cons, paraText_para]
    rw [ih, List.map_cons, List.cons_append]

/-- C6: the story contains exactly one titled section per report field, in
the fixed order Company Overview, Recent Developments, Earnings Summary,
Future Plans, Stock Context, Sources; each scalar field is one paragraph
under its heading, and each list field is rendered as one `"- "` bullet
paragraph per item. -/
theorem build_story_sections (company created_at : Str) (r : CompanyReport) :
    headings (build_story company created_at r)
      = ["<b>Company Overview</b>".data, "<b>Recent Developments</b>".data,
         "<b>Earnings Summary</b>".data, "<b>Future Plans</b>".data,
         "<b>Stock Context</b>".data, "<b>Sources</b>".data] ∧
    sectionParas (build_story company created_at r)
        "<b>Company Overview</b>".data = [r.company_overview] ∧
    sectionParas (build_story company created_at r)
        "<b>Recent Developments</b>".data
      = r.recent_developments.map (fun i => '-' :: ' ' :: i) ∧
    sectionParas (build_story company created_at r)
        "<b>Earnings Summary</b>".data = [r.earnings_summary] ∧
    sectionParas (build_story company created_at r)
        "<b>Future Plans</b>".data = [r.future_plans] ∧
    sectionParas (build_story company created_at r)
        "<b>Stock Context</b>".data = [r.stock_context] ∧
    sectionParas (build_story company created_at r)
        "<b>Sources</b>".data = r.sources.map (fun s => '-' :: ' ' :: s) := by
  refine ⟨?_, ?_, ?_, ?_, ?_, ?_, ?_⟩ <;>
    simp +decide [build_story, sectionParas, headings_append, headings_cons_para,
      headings_cons_spacer, headings_nil, headings_bullets, afterHeading_para,
      afterHeading_spacer, afterHeading_nil, afterHeading_bullets,
      upToNextHeading_cons, upToNextHeading_nil, upToNextHeading_bullets,
      isHeading_para, isHeading_spacer, List.filterMap_cons, paraText_para,
      paraText_spacer, filterMap_paraText_bullets, upToNextHeading_only_bullets,
      List.filterMap_map, filterMap_paraText_comp]

/-! ### Timestamps, the report pipeline and the Generate tab
(claims C5, C7, C10) -/

/-- A `datetime.utcnow()` reading, by calendar fields. -/
structure UtcTime where
  year : Nat
  month : Nat
  day : Nat
  hour : Nat
  minute : Nat
  second : Nat
deriving DecidableEq

/-- A zero-padded two-digit decimal field, as emitted by `strftime` for
`%m %d %H %M %S` (faithful for values below 100). -/
def pad2 (n : Nat) : Str :=
  [Char.ofNat (48 + n / 10), Char.ofNat (48 + n % 10)]

/-- A zero-padded four-digit decimal field, as emitted by `strftime` for
`%Y` (faithful for years below 10000). -/
def pad4 (n : Nat) : Str :=
  [Char.ofNat (48 + n / 1000 % 10), Char.ofNat (48 + n / 100 % 10),
   Char.ofNat (48 + n / 10 % 10), Char.ofNat (48 + n % 10)]

/-- `strftime("%Y%m%d_%H%M%S")` (app.py line 161), used in the file
name. -/
def fmt_file_timestamp (t : UtcTime) : Str :=
  pad4 t.year ++ pad2 t.month ++ pad2 t.day
    ++ '_' :: (pad2 t.hour ++ pad2 t.minute ++ pad2 t.second)

/-- `strftime("%Y-%m-%d %H:%M UTC")` (app.py line 160), the in-document
caption. -/
def fmt_created_at (t : UtcTime) : Str :=
  pad4 t.year ++ '-' :: pad2 t.month ++ '-' :: pad2 t.day
    ++ ' ' :: pad2 t.hour ++ ':' :: pad2 t.minute ++ " UTC".data

/-- `strftime("%Y-%m-%d %H:%M:%S")` (app.py line 225), the `created_at`
column value. -/
def fmt_db_timestamp (t : UtcTime) : Str :=
  pad4 t.year ++ '-' :: pad2 t.month ++ '-' :: pad2 t.day
    ++ ' ' :: pad2 t.hour ++ ':' :: pad2 t.minute ++ ':' :: pad2 t.second

/-- `generate_report(company)` of app.py lines 126–200, as a function of
the outcomes of its external calls: the five search outcomes, the
structured-LLM invocation (a function from the facet values interpolated
into the prompt to its outcome), the two `datetime.utcnow()` readings of
lines 160–161, and the files present on disk.  An LLM exception
propagates; on success the function returns the returned `file_name`, the
story handed to `pdf.build`, and the disk contents after the PDF is
written. -/
def generate_report (company : Str) (searches : SearchOutcomes)
    (llm : FacetText → Except Err CompanyReport)
    (t_caption t_file : UtcTime) (files : List Str) :
    Except Err (Str × List PdfElem × List Str) :=
  let facets := fetch_facets searches
  match llm facets with
  | .error e => .error e
  | .ok report =>
    let created_at := fmt_created_at t_caption
    let timestamp := fmt_file_timestamp t_file
    let file_name := company ++ '_' :: timestamp ++ ".pdf".data
    .ok (file_name, build_story company created_at report, file_name :: files)

/-- One row of the `reports` table (the `id` column is implicit in the
list position). -/
structure Row where
  company : Str
  pdf_path : Str
  created_at : Str
deriving DecidableEq

/-- The persistent state the app mutates: the files on disk and the rows
of the `reports` table, in insertion order. -/
structure SysState where
  files : List Str
  rows : List Row
deriving DecidableEq

/-- The Generate Report tab handler (app.py lines 215–227): an empty
company name only shows an error; otherwise `generate_report` runs and,
on success, one row is inserted with the returned path and a fresh
`utcnow()` reading `t_db`.  The first component is the exception that
escaped the handler, if any. -/
def generate_click (company : Str) (searches : SearchOutcomes)
    (llm : FacetText → Except Err CompanyReport)
    (t_caption t_file t_db : UtcTime) (s : SysState) :
    Option Err × SysState :=
  if company = [] then (none, s)
  else
    match generate_report company searches llm t_caption t_file s.files with
    | .error e => (some e, s)
    | .ok (file_name, _story, files) =>
      (none,
       { files := files
         rows := s.rows ++ [{ company := company, pdf_path := file_name,
                              created_at := fmt_db_timestamp t_db }] })

/-- C5: a Generate action that completes successfully (nonempty company
name, LLM call returns a report) raises nothing and inserts exactly one
new row, whose `company` equals the entered name and whose `pdf_path` is
the file that was written — present on disk in the post state. -/
theorem generate_click_success (company : Str) (searches : SearchOutcomes)
    (llm : FacetText → Except Err CompanyReport)
    (t_caption t_file t_db : UtcTime) (s : SysState) (report : CompanyReport)
    (hc : company ≠ [])
    (hllm : llm (fetch_facets searches) = Except.ok report) :
    ∃ p : Str,
      (generate_click company searches llm t_caption t_file t_db s).1 = none ∧
      (generate_click company searches llm t_caption t_file t_db s).2.rows
        = s.rows ++ [{ company := company, pdf_path := p,
                       created_at := fmt_db_timestamp t_db }] ∧
      p ∈ (generate_click company searches llm t_caption t_file t_db s).2.files := by
  refine ⟨company ++ '_' :: fmt_file_timestamp t_file ++ ".pdf".data, ?_, ?_, ?_⟩ <;>
    simp [generate_click, generate_report, hllm, hc]

/-- C5 witness: a concrete successful Generate action. -/
theorem generate_click_success_witness :
    ∃ p : Str,
      (generate_click ['A']
        ⟨Except.error [], Except.error [], Except.error [],
          Except.error [], Except.error []⟩
        (fun _ => Except.ok ⟨[], [], [], [], [], []⟩)
        ⟨2026, 1, 2, 3, 4, 5⟩ ⟨2026, 1, 2, 3, 4, 5⟩ ⟨2026, 1, 2, 3, 4, 5⟩
        ⟨[], []⟩).1 = none ∧
      (generate_click ['A']
        ⟨Except.error [], Except.error [], Except.error [],
          Except.error [], Except.error []⟩
        (fun _ => Except.ok ⟨[], [], [], [], [], []⟩)
        ⟨2026, 1, 2, 3, 4, 5⟩ ⟨2026, 1, 2, 3, 4, 5⟩ ⟨2026, 1, 2, 3, 4, 5⟩
        ⟨[], []⟩).2.rows
        = [] ++ [{ company := ['A'], pdf_path := p,
                   created_at := fmt_db_timestamp ⟨2026, 1, 2, 3, 4, 5⟩ }] ∧
      p ∈ (generate_click ['A']
        ⟨Except.error [], Except.error [], Except.error [],
          Except.error [], Except.error []⟩
        (fun _ => Except.ok ⟨[], [], [], [], [], []⟩)
        ⟨2026, 1, 2, 3, 4, 5⟩ ⟨2026, 1, 2, 3, 4, 5⟩ ⟨2026, 1, 2, 3, 4, 5⟩
        ⟨[], []⟩).2.files :=
  generate_click_success ['A'] _ _ _ _ _ ⟨[], []⟩ ⟨[], [], [], [], [], []⟩
    (by decide) rfl

/-- C7: if the structured-LLM call raises, the error escapes
`generate_report` uncaught, and the handler leaves the persisted state
untouched: no file is written and no row is inserted. -/
theorem generate_click_llm_error (company : Str) (searches : SearchOutcomes)
    (llm : FacetText → Except Err CompanyReport)
    (t_caption t_file t_db : UtcTime) (s : SysState) (e : Err)
    (hc : company ≠ [])
    (hllm : llm (fetch_facets searches) = Except.error e) :
    generate_report company searches llm t_caption t_file s.files
      = Except.error e ∧
    generate_click company searches llm t_caption t_file t_db s = (some e, s) := by
  constructor <;> simp [generate_click, generate_report, hllm, hc]

/-- C7 witness: a concrete Generate action whose LLM call raises. -/
theorem generate_click_llm_error_witness :
    generate_report ['A']
        ⟨Except.error [], Except.error [], Except.error [],
          Except.error [], Except.error []⟩
        (fun _ => Except.error ['x'])
        ⟨2026, 1, 2, 3, 4, 5⟩ ⟨2026, 1, 2, 3, 4, 5⟩
        (SysState.mk [] []).files
      = Except.error ['x'] ∧
    generate_click ['A']
        ⟨Except.error [], Except.error [], Except.error [],
          Except.error [], Except.error []⟩
        (fun _ => Except.error ['x'])
        ⟨2026, 1, 2, 3, 4, 5⟩ ⟨2026, 1, 2, 3, 4, 5⟩ ⟨2026, 1, 2, 3, 4, 5⟩
        (SysState.mk [] [])
      = (some ['x'], SysState.mk [] []) :=
  generate_click_llm_error ['A'] _ _ _ _ _ (SysState.mk [] []) ['x']
    (by decide) rfl

/-- C10: on a successful run the returned file name is exactly the
company name, an underscore, the `%Y%m%d_%H%M%S` timestamp and the suffix
`.pdf`, and that is the path the PDF is written to; the company name is
interpolated unsanitized, so a path separator in the company name lands
verbatim in the written path. -/
theorem generate_report_file_name (company : Str) (searches : SearchOutcomes)
    (llm : FacetText → Except Err CompanyReport)
    (t_caption t_file : UtcTime) (files : List Str) (report : CompanyReport)
    (hllm : llm (fetch_facets searches) = Except.ok report) :
    generate_report company searches llm t_caption t_file files
      = Except.ok (company ++ '_' :: fmt_file_timestamp t_file ++ ".pdf".data,
          build_story company (fmt_created_at t_caption) report,
          (company ++ '_' :: fmt_file_timestamp t_file ++ ".pdf".data) :: files) ∧
    ('/' ∈ company →
      '/' ∈ company ++ '_' :: fmt_file_timestamp t_file ++ ".pdf".data) := by
  constructor
  · simp [generate_report, hllm]
  · intro hmem
    exact List.mem_append_left _ (List.mem_append_left _ hmem)

/-- C10 witness: a company name containing a path separator propagates it
into the file name. -/
theorem generate_report_file_name_witness :
    generate_report ['a', '/', 'b']
        ⟨Except.error [], Except.error [], Except.error [],
          Except.error [], Except.error []⟩
        (fun _ => Except.ok ⟨[], [], [], [], [], []⟩)
        ⟨2026, 1, 2, 3, 4, 5⟩ ⟨2026, 1, 2, 3, 4, 5⟩ []
      = Except.ok
          (['a', '/', 'b'] ++ '_' :: fmt_file_timestamp ⟨2026, 1, 2, 3, 4, 5⟩
              ++ ".pdf".data,
            build_story ['a', '/', 'b'] (fmt_created_at ⟨2026, 1, 2, 3, 4, 5⟩)
              ⟨[], [], [], [], [], []⟩,
            (['a', '/', 'b'] ++ '_' :: fmt_file_timestamp ⟨2026, 1, 2, 3, 4, 5⟩
                ++ ".pdf".data) :: []) ∧
    '/' ∈ ['a', '/', 'b'] ++ '_' :: fmt_file_timestamp ⟨2026, 1, 2, 3, 4, 5⟩
        ++ ".pdf".data :=
  ⟨(generate_report_file_name ['a', '/', 'b']
      ⟨Except.error [], Except.error [], Except.error [],
        Except.error [], Except.error []⟩
      (fun _ => Except.ok ⟨[], [], [], [], [], []⟩)
      ⟨2026, 1, 2, 3, 4, 5⟩ ⟨2026, 1, 2, 3, 4, 5⟩ []
      ⟨[], [], [], [], [], []⟩ rfl).1,
   (generate_report_file_name ['a', '/', 'b']
      ⟨Except.error [], Except.error [], Except.error [],
        Except.error [], Except.error []⟩
      (fun _ => Except.ok ⟨[], [], [], [], [], []⟩)
      ⟨2026, 1, 2, 3, 4, 5⟩ ⟨2026, 1, 2, 3, 4, 5⟩ []
      ⟨[], [], [], [], [], []⟩ rfl).2 (by decide)⟩

/-! ### The Report History tab (claims C8 and C9) -/

/-- Byte-wise string comparison, as SQLite's default BINARY collation
orders TEXT values (for the ASCII timestamp strings at hand, code-point
order). -/
def strLt : Str → Str → Bool
  | [], [] => false
  | [], _ :: _ => true
  | _ :: _, [] => false
  | a :: as, b :: bs =>
    if a.toNat < b.toNat then true
    else if b.toNat < a.toNat then false
    else strLt as bs

/-- Non-strict byte-wise string comparison. -/
def strLe (a b : Str) : Bool := !(strLt b a)

theorem char_toNat_inj {a b : Char} (h : a.toNat = b.toNat) : a = b := by
  have ha := Char.ofNat_toNat a
  have hb := Char.ofNat_toNat b
  rw [← ha, ← hb, h]

theorem strLt_irrefl (a : Str) : strLt a a = false := by
  induction a with
  | nil => rfl
  | cons x xs ih => simp [strLt, ih]

theorem strLt_trans {a b c : Str} (hab : strLt a b = true)
    (hbc : strLt b c = true) : strLt a c = true := by
  induction a generalizing b c with
  | nil =>
    cases b with
    | nil => simp [strLt] at hab
    | cons y bs =>
      cases c with
      | nil => simp [strLt] at hbc
      | cons z cs => rfl
  | cons x xs ih =>
    cases b with
    | nil => simp [strLt] at hab
    | cons y bs =>
      cases c with
      | nil => simp [strLt] at hbc
      | cons z cs =>
        simp only [strLt] at hab hbc ⊢
        by_cases h1 : x.toNat < y.toNat
        · by_cases h2 : y.toNat < z.toNat
          · rw [if_pos (by omega)]
          · rw [if_neg h2] at hbc
            by_cases h3 : z.toNat < y.toNat
            · rw [if_pos h3] at hbc
              exact (Bool.false_ne_true hbc).elim
            · rw [if_pos (by omega)]
        · by_cases h2 : y.toNat < x.toNat
          · rw [if_neg h1, if_pos h2] at hab
            exact (Bool.false_ne_true hab).elim
          · rw [if_neg h1, if_neg h2] at hab
            by_cases h3 : y.toNat < z.toNat
            · rw [if_pos (by omega)]
            · rw [if_neg h3] at hbc
              by_cases h4 : z.toNat < y.toNat
              · rw [if_pos h4] at hbc
                exact (Bool.false_ne_true hbc).elim
              · rw [if_neg h4] at hbc
                rw [if_neg (by omega), if_neg (by omega)]
                exact ih hab hbc

theorem strLt_connex {a b : Str} (hab : strLt a b = false)
    (hba : strLt b a = false) : a = b := by
  induction a generalizing b with
  | nil =>
    cases b with
    | nil => rfl
    | cons y bs => simp [strLt] at hab
  | cons x xs ih =>
    cases b with
    | nil => simp [strLt] at hba
    | cons y bs =>
      simp only [strLt] at hab hba
      by_cases h1 : x.toNat < y.toNat
      · rw [if_pos h1] at hab
        exact absurd hab (by simp)
      · by_cases h2 : y.toNat < x.toNat
        · rw [if_pos h2] at hba
          exact absurd hba (by simp)
        · rw [if_neg h1, if_neg h2] at hab
          have hx : x = y := char_toNat_inj (by omega)
          rw [hx, ih hab (by rwa [if_neg h2, if_neg h1] at hba)]

theorem strLe_total (a b : Str) : strLe a b = true ∨ strLe b a = true := by
  by_cases h1 : strLt b a = true
  · by_cases h2 : strLt a b = true
    · have := strLt_trans h1 h2
      rw [strLt_irrefl] at this
      exact absurd this (by simp)
    · right
      simp [strLe, h2]
  · left
    simp [strLe, h1]

theorem strLe_trans {a b c : Str} (hab : strLe a b = true)
    (hbc : strLe b c = true) : strLe a c = true := by
  simp only [strLe, Bool.not_eq_true'] at hab hbc ⊢
  by_cases hca : strLt c a = true
  · by_cases h : strLt a b = true
    · have := strLt_trans hca h
      rw [this] at hbc
      exact absurd hbc (by simp)
    · have hba : a = b := strLt_connex (Bool.not_eq_true _ ▸ h) hab
      rw [hba] at hca
      rw [hca] at hbc
      exact absurd hbc (by simp)
  · exact Bool.not_eq_true _ ▸ hca

/-- `a` may be listed before `b` under `ORDER BY created_at DESC`. -/
def rowBefore (a b : Row) : Prop := strLe b.created_at a.created_at = true

instance : DecidableRel rowBefore := fun a b => by
  unfold rowBefore
  infer_instance

/-- Insert a row into a list sorted by descending `created_at`. -/
def insertRowDesc (r : Row) : List Row → List Row
  | [] => [r]
  | x :: xs =>
    if strLe x.created_at r.created_at then r :: x :: xs
    else x :: insertRowDesc r xs

/-- The `SELECT ... ORDER BY created_at DESC` of app.py line 242,
modelled as an insertion sort of the stored rows by descending
`created_at` under SQLite's BINARY text ordering. -/
def orderByCreatedDesc : List Row → List Row
  | [] => []
  | x :: xs => insertRowDesc x (orderByCreatedDesc xs)

theorem insertRowDesc_perm (r : Row) (l : List Row) :
    (insertRowDesc r l).Perm (r :: l) := by
  induction l with
  | nil => exact List.Perm.refl _
  | cons x xs ih =>
    by_cases h : strLe x.created_at r.created_at = true
    · simp [insertRowDesc, h]
    · simp only [insertRowDesc, if_neg h]
      exact (ih.cons x).trans (List.Perm.swap r x xs)

theorem orderByCreatedDesc_perm (l : List Row) :
    (orderByCreatedDesc l).Perm l := by
  induction l with
  | nil => exact List.Perm.refl _
  | cons x xs ih =>
    exact (insertRowDesc_perm x (orderByCreatedDesc xs)).trans (ih.cons x)

theorem pairwise_insertRowDesc (r : Row) (l : List Row)
    (h : List.Pairwise rowBefore l) :
    List.Pairwise rowBefore (insertRowDesc r l) := by
  induction l with
  | nil => simp [insertRowDesc]
  | cons x xs ih =>
    rcases List.pairwise_cons.mp h with ⟨hx, hxs⟩
    by_cases hc : strLe x.created_at r.created_at = true
    · simp only [insertRowDesc, if_pos hc]
      refine List.pairwise_cons.mpr ⟨?_, h⟩
      intro y hy
      rcases List.mem_cons.mp hy with hy | hy
      · rw [hy]
        exact hc
      · exact strLe_trans (hx y hy) hc
    · simp only [insertRowDesc, if_neg hc]
      refine List.pairwise_cons.mpr ⟨?_, ih hxs⟩
      intro y hy
      rcases List.mem_cons.mp ((insertRowDesc_perm r xs).mem_iff.mp hy) with hy | hy
      · rw [hy]
        rcases strLe_total x.created_at r.created_at with h1 | h1
        · exact absurd h1 hc
        · exact h1
      · exact hx y hy

theorem orderByCreatedDesc_sorted (l : List Row) :
    List.Pairwise rowBefore (orderByCreatedDesc l) := by
  induction l with
  | nil => exact List.Pairwise.nil
  | cons x xs ih => exact pairwise_insertRowDesc x _ ih

/-! ### The `created_at` string order is the chronological order -/

/-- Chronological order on `utcnow()` readings: lexicographic on the
calendar fields. -/
def timeLt (a b : UtcTime) : Prop :=
  a.year < b.year ∨ (a.year = b.year ∧
    (a.month < b.month ∨ (a.month = b.month ∧
      (a.day < b.day ∨ (a.day = b.day ∧
        (a.hour < b.hour ∨ (a.hour = b.hour ∧
          (a.minute < b.minute ∨ (a.minute = b.minute ∧
            a.second < b.second)))))))))

/-- The field ranges within which the zero-padded `strftime` model is
faithful (every real `utcnow()` reading satisfies them). -/
def validTime (t : UtcTime) : Prop :=
  t.year < 10000 ∧ t.month < 100 ∧ t.day < 100 ∧
    t.hour < 100 ∧ t.minute < 100 ∧ t.second < 100

theorem digit_toNat (d : Nat) (h : d < 10) :
    (Char.ofNat (48 + d)).toNat = 48 + d := by
  interval_cases d <;> decide

theorem strLt_cons_same (x : Char) (a b : Str) :
    (strLt (x :: a) (x :: b) = true) ↔ strLt a b = true := by
  simp [strLt]

theorem strLt_append (a b c d : Str) (hlen : a.length = b.length) :
    (strLt (a ++ c) (b ++ d) = true)
      ↔ (strLt a b = true ∨ (a = b ∧ strLt c d = true)) := by
  induction a generalizing b with
  | nil =>
    cases b with
    | nil => simp [strLt]
    | cons y bs => simp at hlen
  | cons x xs ih =>
    cases b with
    | nil => simp at hlen
    | cons y bs =>
      simp only [List.cons_append, strLt]
      by_cases h1 : x.toNat < y.toNat
      · have hxy : ¬(x = y) := fun he => by rw [he] at h1; omega
        simp [if_pos h1, hxy]
      · by_cases h2 : y.toNat < x.toNat
        · have hxy : ¬(x = y) := fun he => by rw [he] at h2; omega
          simp [if_neg h1, if_pos h2, hxy]
        · have hxy : x = y := char_toNat_inj (by omega)
          rw [if_neg h1, if_neg h2, if_neg h1, if_neg h2]
          subst hxy
          have hrec := ih bs (by simpa using hlen)
          simp only [List.cons.injEq, true_and]
          exact hrec

theorem pad2_lt (m n : Nat) (hm : m < 100) (hn : n < 100) :
    (strLt (pad2 m) (pad2 n) = true) ↔ m < n := by
  have h1 := digit_toNat (m / 10) (by omega)
  have h2 := digit_toNat (m % 10) (by omega)
  have h3 := digit_toNat (n / 10) (by omega)
  have h4 := digit_toNat (n % 10) (by omega)
  simp only [pad2, strLt, h1, h2, h3, h4]
  split_ifs <;> simp <;> omega

theorem pad2_inj (m n : Nat) (hm : m < 100) (hn : n < 100) :
    (pad2 m = pad2 n) ↔ m = n := by
  constructor
  · intro h
    simp only [pad2, List.cons.injEq, and_true] at h
    have e1 := congrArg Char.toNat h.1
    have e2 := congrArg Char.toNat h.2
    rw [digit_toNat (m / 10) (by omega), digit_toNat (n / 10) (by omega)] at e1
    rw [digit_toNat (m % 10) (by omega), digit_toNat (n % 10) (by omega)] at e2
    omega
  · intro h
    rw [h]

theorem pad4_lt (m n : Nat) (hm : m < 10000) (hn : n < 10000) :
    (strLt (pad4 m) (pad4 n) = true) ↔ m < n := by
  have h1 := digit_toNat (m / 1000 % 10) (by omega)
  have h2 := digit_toNat (m / 100 % 10) (by omega)
  have h3 := digit_toNat (m / 10 % 10) (by omega)
  have h4 := digit_toNat (m % 10) (by omega)
  have h5 := digit_toNat (n / 1000 % 10) (by omega)
  have h6 := digit_toNat (n / 100 % 10) (by omega)
  have h7 := digit_toNat (n / 10 % 10) (by omega)
  have h8 := digit_toNat (n % 10) (by omega)
  simp only [pad4, strLt, h1, h2, h3, h4, h5, h6, h7, h8]
  split_ifs <;> simp <;> omega

theorem pad4_inj (m n : Nat) (hm : m < 10000) (hn : n < 10000) :
    (pad4 m = pad4 n) ↔ m = n := by
  constructor
  · intro h
    simp only [pad4, List.cons.injEq, and_true] at h
    have e1 := congrArg Char.toNat h.1
    have e2 := congrArg Char.toNat h.2.1
    have e3 := congrArg Char.toNat h.2.2.1
    have e4 := congrArg Char.toNat h.2.2.2
    rw [digit_toNat (m / 1000 % 10) (by omega),
      digit_toNat (n / 1000 % 10) (by omega)] at e1
    rw [digit_toNat (m / 100 % 10) (by omega),
      digit_toNat (n / 100 % 10) (by omega)] at e2
    rw [digit_toNat (m / 10 % 10) (by omega),
      digit_toNat (n / 10 % 10) (by omega)] at e3
    rw [digit_toNat (m % 10) (by omega), digit_toNat (n % 10) (by omega)] at e4
    omega
  · intro h
    rw [h]

theorem pad2_length (n : Nat) : (pad2 n).length = 2 := rfl

theorem pad4_length (n : Nat) : (pad4 n).length = 4 := rfl

/-- The `%Y-%m-%d %H:%M:%S` strings compare (byte-wise, as SQLite orders
them) exactly as the underlying instants compare chronologically. -/
theorem fmt_db_timestamp_lt (t1 t2 : UtcTime)
    (h1 : validTime t1) (h2 : validTime t2) :
    (strLt (fmt_db_timestamp t1) (fmt_db_timestamp t2) = true) ↔ timeLt t1 t2 := by
  obtain ⟨hy1, hmo1, hd1, hh1, hmi1, hs1⟩ := h1
  obtain ⟨hy2, hmo2, hd2, hh2, hmi2, hs2⟩ := h2
  have hblocks : ∀ t : UtcTime, fmt_db_timestamp t
      = pad4 t.year ++ ('-' :: (pad2 t.month ++ ('-' :: (pad2 t.day
          ++ (' ' :: (pad2 t.hour ++ (':' :: (pad2 t.minute
          ++ (':' :: pad2 t.second))))))))) := by
    intro t
    simp [fmt_db_timestamp, List.append_assoc]
  rw [hblocks, hblocks]
  rw [strLt_append _ _ _ _ (by rw [pad4_length, pad4_length]),
    pad4_lt _ _ hy1 hy2, pad4_inj _ _ hy1 hy2, strLt_cons_same,
    strLt_append _ _ _ _ (by rw [pad2_length, pad2_length]),
    pad2_lt _ _ hmo1 hmo2, pad2_inj _ _ hmo1 hmo2, strLt_cons_same,
    strLt_append _ _ _ _ (by rw [pad2_length, pad2_length]),
    pad2_lt _ _ hd1 hd2, pad2_inj _ _ hd1 hd2, strLt_cons_same,
    strLt_append _ _ _ _ (by rw [pad2_length, pad2_length]),
    pad2_lt _ _ hh1 hh2, pad2_inj _ _ hh1 hh2, strLt_cons_same,
    strLt_append _ _ _ _ (by rw [pad2_length, pad2_length]),
    pad2_lt _ _ hmi1 hmi2, pad2_inj _ _ hmi1 hmi2, strLt_cons_same,
    pad2_lt _ _ hs1 hs2]
  unfold timeLt
  tauto

/-- C9: the history listing is the stored rows in reverse-chronological
order of `created_at`: it is a permutation of the table that is pairwise
descending by `created_at` string order, and on valid calendar times that
string order coincides exactly with chronological order. -/
theorem history_reverse_chronological (rows : List Row) :
    List.Pairwise rowBefore (orderByCreatedDesc rows) ∧
    (orderByCreatedDesc rows).Perm rows ∧
    (∀ t1 t2 : UtcTime, validTime t1 → validTime t2 →
      ((strLt (fmt_db_timestamp t1) (fmt_db_timestamp t2) = true)
        ↔ timeLt t1 t2)) :=
  ⟨orderByCreatedDesc_sorted rows, orderByCreatedDesc_perm rows,
   fun t1 t2 h1 h2 => fmt_db_timestamp_lt t1 t2 h1 h2⟩

/-- C9 witness: the ordering statement evaluated on two concrete rows and
two concrete instants. -/
theorem history_reverse_chronological_witness :
    List.Pairwise rowBefore (orderByCreatedDesc
      [⟨['A'], ['p'], fmt_db_timestamp ⟨2025, 1, 1, 0, 0, 0⟩⟩,
       ⟨['B'], ['q'], fmt_db_timestamp ⟨2026, 1, 2, 3, 4, 5⟩⟩]) ∧
    (orderByCreatedDesc
      [⟨['A'], ['p'], fmt_db_timestamp ⟨2025, 1, 1, 0, 0, 0⟩⟩,
       ⟨['B'], ['q'], fmt_db_timestamp ⟨2026, 1, 2, 3, 4, 5⟩⟩]).Perm
      [⟨['A'], ['p'], fmt_db_timestamp ⟨2025, 1, 1, 0, 0, 0⟩⟩,
       ⟨['B'], ['q'], fmt_db_timestamp ⟨2026, 1, 2, 3, 4, 5⟩⟩] ∧
    ((strLt (fmt_db_timestamp ⟨2025, 1, 1, 0, 0, 0⟩)
        (fmt_db_timestamp ⟨2026, 1, 2, 3, 4, 5⟩) = true)
      ↔ timeLt ⟨2025, 1, 1, 0, 0, 0⟩ ⟨2026, 1, 2, 3, 4, 5⟩) :=
  ⟨(history_reverse_chronological _).1,
   (history_reverse_chronological _).2.1,
   (history_reverse_chronological
      ([] : List Row)).2.2 ⟨2025, 1, 1, 0, 0, 0⟩ ⟨2026, 1, 2, 3, 4, 5⟩
     (by constructor <;> simp [validTime])
     (by constructor <;> simp [validTime])⟩

/-! ### Rendering the history rows (claim C8) -/

/-- `open(path, "rb")` on the modelled disk: raises unless the path
exists. -/
def openDisk (files : List Str) (p : Str) : Except Err Unit :=
  if p ∈ files then Except.ok () else Except.error "FileNotFoundError".data

/-- The `f"**{company}** — {date}"` line of app.py line 250. -/
def history_line (company date : Str) : Str :=
  "**".data ++ company ++ ("** — ".data ++ date)

/-- An element shown by the history tab: a written line, the empty-table
warning, or a download button backed by an opened file. -/
inductive UiElem where
  | line (s : Str)
  | warning (s : Str)
  | download (label : Str) (path : Str)
deriving DecidableEq

/-- One iteration of the history loop (app.py lines 249–258): write the
row's line; only if `os.path.exists` holds, open the file and offer a
download button. -/
def render_row (files : List Str) (r : Row) : Except Err (List UiElem) :=
  if r.pdf_path ∈ files then
    match openDisk files r.pdf_path with
    | .error e => .error e
    | .ok _ =>
      .ok [UiElem.line (history_line r.company r.created_at),
           UiElem.download ("Download ".data ++ r.company) r.pdf_path]
  else .ok [UiElem.line (history_line r.company r.created_at)]

/-- The history loop over all fetched rows. -/
def render_rows (files : List Str) : List Row → Except Err (List UiElem)
  | [] => .ok []
  | r :: rest =>
    match render_row files r with
    | .error e => .error e
    | .ok es =>
      match render_rows files rest with
      | .error e => .error e
      | .ok rest2 => .ok (es ++ rest2)

/-- The Report History tab (app.py lines 240–258): fetch the rows ordered
by `created_at DESC`; warn when the table is empty; otherwise render each
row. -/
def report_history_tab (files : List Str) (rows : List Row) :
    Except Err (List UiElem) :=
  if orderByCreatedDesc rows = [] then
    .ok [UiElem.warning "No reports generated yet".data]
  else render_rows files (orderByCreatedDesc rows)

theorem render_row_ok (files : List Str) (r : Row) :
    ∃ es, render_row files r = Except.ok es := by
  by_cases h : r.pdf_path ∈ files
  · refine ⟨[UiElem.line (history_line r.company r.created_at),
      UiElem.download ("Download ".data ++ r.company) r.pdf_path], ?_⟩
    simp [render_row, openDisk, h]
  · refine ⟨[UiElem.line (history_line r.company r.created_at)], ?_⟩
    simp [render_row, h]

theorem render_rows_ok (files : List Str) (rows : List Row) :
    ∃ out, render_rows files rows = Except.ok out := by
  induction rows with
  | nil => exact ⟨[], rfl⟩
  | cons r rest ih =>
    obtain ⟨es, hes⟩ := render_row_ok files r
    obtain ⟨out, hout⟩ := ih
    exact ⟨es ++ out, by simp [render_rows, hes, hout]⟩

/-- C8: rendering the history view never raises, whatever rows are stored
and whatever files remain on disk; a row whose file no longer exists is
still rendered — its line with company and date — with only the download
action omitted. -/
theorem history_missing_file_safe (files : List Str) (rows : List Row) :
    (∃ out, report_history_tab files rows = Except.ok out) ∧
    (∀ r : Row, r.pdf_path ∉ files →
      render_row files r
        = Except.ok [UiElem.line (history_line r.company r.created_at)]) := by
  constructor
  · unfold report_history_tab
    by_cases h : orderByCreatedDesc rows = []
    · exact ⟨_, by rw [if_pos h]⟩
    · rw [if_neg h]
      exact render_rows_ok files _
  · intro r hr
    simp [render_row, hr]

/-- C8 witness: a stored row whose file is absent from disk renders
safely as its line alone. -/
theorem history_missing_file_safe_witness :
    (∃ out, report_history_tab [] [⟨['A'], ['p'], ['d']⟩] = Except.ok out) ∧
    render_row [] ⟨['A'], ['p'], ['d']⟩
      = Except.ok [UiElem.line (history_line ['A'] ['d'])] :=
  ⟨(history_missing_file_safe [] [⟨['A'], ['p'], ['d']⟩]).1,
   (history_missing_file_safe [] [⟨['A'], ['p'], ['d']⟩]).2
     ⟨['A'], ['p'], ['d']⟩ (by decide)⟩
